import Mathlib

/-!
Shallow embedding of `mtdata/entry.py`: the dataset-identifier grammar
(`DatasetId`), the retrieval-unit model (`Entry`), and the paper/experiment
aggregation model (`Experiment`, `Paper`), together with proofs of the
specified properties.

Python string primitives (`str.strip`, `str.split`, `str.islower`,
truthiness of `None`/empty values) are modelled explicitly over `List Char`
so that every definition is executable by the kernel.  The models cover the
ASCII range, which is the character range exercised by the catalog grammar.
-/

deriving instance DecidableEq for Except

namespace Mtdata

/-- Canonical language tag. Modelled from the spec: the external BCP47
normalization service (`mtdata.iso.bcp47`, not part of this source tree) is
opaque; a canonical tag is identified by its canonical string form, and the
service itself is passed around as a function `String → Option BCP47Tag`. -/
structure BCP47Tag where
  tag : String
deriving DecidableEq, Repr

/-- Whitespace recognized by Python `str.strip()` (ASCII subset). -/
def isPySpace (c : Char) : Bool :=
  c = ' ' || c = '\t' || c = '\n' || c = '\x0d' || c = '\x0b' || c = '\x0c'

/-- Python `s.strip()`: remove leading and trailing whitespace. -/
def pyStrip (s : String) : String :=
  ⟨((s.data.dropWhile isPySpace).reverse.dropWhile isPySpace).reverse⟩

/-- A character is cased in the sense of Python `str.islower` (ASCII subset):
an upper-case or lower-case letter. -/
def pyCased (c : Char) : Bool := c.isUpper || c.isLower

/-- Python `s.islower()`: true iff `s` has at least one cased character and
every cased character is lower-case. -/
def pyIsLower (s : String) : Bool :=
  s.data.any pyCased && s.data.all (fun c => !c.isUpper)

/-- The reserved structural characters of the identifier grammar: dash,
slash, star, pipe, brackets, parentheses, braces, angle brackets, question
mark, ampersand, colon, semicolon, comma, bang, caret, dollar, double quote,
single quote and space (the source's reserved-character string literal). -/
def reservedChars : List Char :=
  ['-', '/', '*', '|', '[', ']', '(', ')', '\x7b', '\x7d', '<', '>', '?',
   '&', ':', ';', ',', '!', '^', '$', '"', '\x27', ' ']

/-- First reserved character occurring in `s`, scanning the reserved list in
source order (mirrors the `for ch in ...: assert ch not in name` loop). -/
def findReserved (s : String) : Option Char :=
  reservedChars.find? (fun ch => decide (ch ∈ s.data))

/-- First field among `fields` holding a reserved character, paired with that
character (mirrors the nested validation loops of `DatasetId.__post_init__`). -/
def firstViolation : List String → Option (Char × String)
  | [] => none
  | f :: rest =>
    match findReserved f with
    | some ch => some (ch, f)
    | none => firstViolation rest

/-- Python `s.split(d)` for a one-character separator, over `List Char`. -/
def splitCharList (d : Char) : List Char → List (List Char)
  | [] => [[]]
  | c :: cs =>
    let r := splitCharList d cs
    if c = d then [] :: r
    else
      match r with
      | [] => [[c]]
      | x :: xs => (c :: x) :: xs

/-- Python `s.split(d)` for a one-character separator (the source's
`DID_DELIM` and the URL separator are single characters). -/
def pySplitChar (d : Char) (s : String) : List String :=
  (splitCharList d s.data).map fun l => ⟨l⟩

/-- Python `d.join(parts)` for a one-character delimiter, over `List Char`. -/
def joinCharList (d : Char) : List (List Char) → List Char
  | [] => []
  | [x] => x
  | x :: xs => x ++ d :: joinCharList d xs

/-- Python `d.join(parts)` for a one-character delimiter. -/
def joinChar (d : Char) (parts : List String) : String :=
  ⟨joinCharList d (parts.map String.data)⟩

/-- The default identifier delimiter `DID_DELIM = '-'`. -/
def DID_DELIM : Char := '-'

/-- Errors of the identifier component (spec taxonomy §7): assertion
failures of `DatasetId.__post_init__` surface as `invalidIdentifier`, the
segment-count failure of `DatasetId.parse` as `malformedIdentifierString`. -/
inductive IdErr where
  | invalidIdentifier (msg : String)
  | malformedIdentifierString (msg : String)
deriving DecidableEq, Repr

/-- Immutable dataset identifier. `langs` holds the canonical tags after the
construction-time normalization of `__post_init__`. -/
structure DatasetId where
  group : String
  name : String
  version : String
  langs : List BCP47Tag
deriving DecidableEq, Repr

/-- Normalize every raw tag through the external service; fail if any tag
is rejected (models the generator expression of `__post_init__`; raw tags
that are already canonical objects simply re-enter the service-free path,
represented here by `norm` fixing canonical strings). -/
def normalizeAll (norm : String → Option BCP47Tag) :
    List String → Option (List BCP47Tag)
  | [] => some []
  | s :: ss =>
    match norm s, normalizeAll norm ss with
    | some t, some ts => some (t :: ts)
    | _, _ => none

/-- `DatasetId(...)` with its `__post_init__` validation, parametrized by the
external normalizer `norm` (`bcp47`): non-empty `group`/`name`/`version`,
lower-case `name`, no reserved character in `group`/`version`/`name`, and
every raw language tag normalized through `norm`. -/
def DatasetId.construct (norm : String → Option BCP47Tag)
    (group name version : String) (langs : List String) :
    Except IdErr DatasetId :=
  if group.data = [] then .error (.invalidIdentifier "group must be non-empty")
  else if name.data = [] then .error (.invalidIdentifier "name must be non-empty")
  else if version.data = [] then .error (.invalidIdentifier "version must be non-empty")
  else if pyIsLower name = false then
    .error (.invalidIdentifier ("name " ++ name ++ " has to be lower cased for consistency"))
  else
    match firstViolation [group, version, name] with
    | some (ch, f) =>
      .error (.invalidIdentifier ("Character " ++ String.singleton ch
        ++ " is not permitted in name " ++ f))
    | none =>
      match normalizeAll norm langs with
      | none => .error (.invalidIdentifier "language tag is not a valid BCP47 tag")
      | some tags => .ok ⟨group, name, version, tags⟩

/-- `DatasetId.lang_str`: the tags joined with `DID_DELIM`. -/
def DatasetId.lang_str (d : DatasetId) : String :=
  joinChar DID_DELIM (d.langs.map fun t => t.tag)

/-- `DatasetId.format(delim)`: group, name, version and `lang_str` joined
with `delim` (note `lang_str` always uses `DID_DELIM`). -/
def DatasetId.format (d : DatasetId) (delim : Char) : String :=
  joinChar delim [d.group, d.name, d.version, d.lang_str]

/-- The expected-format template of the parse error message
(`<group>{delim}<name>{delim}<version>{delim}<l1>{delim}<l2>`). -/
def expectedFormat (delim : Char) : String :=
  "<group>" ++ String.singleton delim ++ "<name>" ++ String.singleton delim
    ++ "<version>" ++ String.singleton delim ++ "<l1>" ++ String.singleton delim
    ++ "<l2>"

/-- The catalog listing command named in the parse error's remediation hint. -/
def CATALOG_CMD : String := "mtdata list"

/-- The message of the `MalformedIdentifierString` error raised by
`DatasetId.parse` for a wrong segment count. -/
def malformedMsg (delim : Char) (string : String) : String :=
  "Dataset ID expected in format: " ++ expectedFormat delim ++ "; but given "
    ++ string ++ ". If you are unsure, run \"" ++ CATALOG_CMD
    ++ " | cut -f1 | grep -i <name>\" and copy its id."

/-- `DatasetId.parse(string, delim)`: strip, split on the delimiter, require
exactly 5 segments, then construct (which re-validates and normalizes). -/
def DatasetId.parse (norm : String → Option BCP47Tag) (string : String)
    (delim : Char) : Except IdErr DatasetId :=
  match pySplitChar delim (pyStrip string) with
  | [group, name, version, lang1, lang2] =>
    DatasetId.construct norm group name version [lang1, lang2]
  | _ => .error (.malformedIdentifierString (malformedMsg delim string))

/-- Errors of the entry component (spec taxonomy §7): the dot-extension
assertion, the two archive-spec failures (missing `in_paths`, missing
`in_ext`) and the non-archive `in_paths` assertion. -/
inductive EntryErr where
  | extStartsWithDot
  | archiveSpecError
  | invalidEntryShape
deriving DecidableEq, Repr

/-- Python `x or default` for an optional string (`None` and `""` are falsy). -/
def pyOrStr (o : Option String) (d : String) : String :=
  match o with
  | none => d
  | some s => if s.data.isEmpty then d else s

/-- Python truthiness of an optional string. -/
def pyTruthyStr : Option String → Bool
  | none => false
  | some s => !s.data.isEmpty

/-- Python truthiness of an optional list. -/
def pyTruthyList : Option (List String) → Bool
  | none => false
  | some l => !l.isEmpty

/-- Python `s.startswith(".")`. -/
def pyStartsWithDot (s : String) : Bool :=
  match s.data with
  | '.' :: _ => true
  | _ => false

/-- The closed archive-extension set of `Entry.__init__`. -/
def ARCHIVE_EXTS : List String := ["zip", "tar", "tar.gz", "tgz"]

/-- Membership test in the archive-extension set (exact, case-sensitive). -/
def isArchiveExt (s : String) : Bool := decide (s ∈ ARCHIVE_EXTS)

/-- `url.split('/')[-1]`: the last path segment of the URL. -/
def lastSegment (url : String) : String :=
  (pySplitChar '/' url).getLastD ""

/-- Extension resolution of `Entry.__init__`: keep a truthy supplied `ext`,
else run the external extension-detection service on `filename or
url.split('/')[-1]`. -/
def resolveExt (detect : String → String) (url : String)
    (filename ext : Option String) : String :=
  let orig_name := lastSegment url
  match ext with
  | some e => if e.data.isEmpty then detect (pyOrStr filename orig_name) else e
  | none => detect (pyOrStr filename orig_name)

/-- Filename resolution of `Entry.__init__`: a truthy supplied `filename`,
else `<dataset-name>.<ext>`. -/
def resolveFilename (detect : String → String) (did : DatasetId) (url : String)
    (filename ext : Option String) : String :=
  pyOrStr filename (did.name ++ "." ++ resolveExt detect url filename ext)

/-- One retrievable unit of a dataset, after the field resolution of
`Entry.__init__`. -/
structure Entry where
  did : DatasetId
  url : String
  filename : String
  ext : String
  in_paths : Option (List String)
  in_ext : Option String
  cite : Option String
  cols : Option (Int × Int)
  is_archive : Bool
deriving DecidableEq, Repr

/-- `Entry(...)`: resolve `ext` and `filename`, check the dot rule, derive
`is_archive`, and enforce the archive/non-archive consistency rules, in the
order of the source. `detect` is the external extension-detection service. -/
def Entry.construct (detect : String → String) (did : DatasetId) (url : String)
    (filename ext : Option String) (in_paths : Option (List String))
    (in_ext cite : Option String) (cols : Option (Int × Int)) :
    Except EntryErr Entry :=
  if pyStartsWithDot (resolveExt detect url filename ext) = true then
    .error .extStartsWithDot
  else if isArchiveExt (resolveExt detect url filename ext) = true then
    if pyTruthyList in_paths = false then .error .archiveSpecError
    else if pyTruthyStr in_ext = false then .error .archiveSpecError
    else .ok ⟨did, url, resolveFilename detect did url filename ext,
      resolveExt detect url filename ext, in_paths, in_ext, cite, cols, true⟩
  else
    if in_ext ≠ some "opus_xces" then
      if pyTruthyList in_paths = true then .error .invalidEntryShape
      else .ok ⟨did, url, resolveFilename detect did url filename ext,
        resolveExt detect url filename ext, in_paths, in_ext, cite, cols, false⟩
    else .ok ⟨did, url, resolveFilename detect did url filename ext,
      resolveExt detect url filename ext, in_paths, in_ext, cite, cols, false⟩

/-- `Entry.lang_str`: delegates to the identifier's `lang_str`. -/
def Entry.lang_str (e : Entry) : String := e.did.lang_str

/-- `Entry.is_swap(langs)` as written in the source: `tmx` entries are never
swapped; otherwise compare `tuple(reversed(langs))` with
`tuple(self.lang_str)` — and since `lang_str` is a string, the right-hand
side is the tuple of its one-character strings. -/
def Entry.is_swap (e : Entry) (langs : List String) : Bool :=
  if e.in_ext = some "tmx" then false
  else decide (langs.reverse = e.lang_str.data.map String.singleton)

/-- `Entry.is_noisy(seg1, seg2)`: either segment absent, or empty after
stripping whitespace. -/
def Entry.is_noisy (_e : Entry) (seg1 seg2 : Option String) : Bool :=
  match seg1, seg2 with
  | none, _ => true
  | _, none => true
  | some a, some b => (pyStrip a).data.isEmpty || (pyStrip b).data.isEmpty

/-- `Entry.format(delim)`: display line of identifier, URL and comma-joined
inbound paths. -/
def Entry.formatLine (e : Entry) (delim : Char) : String :=
  e.did.format DID_DELIM ++ String.singleton delim ++ e.url
    ++ String.singleton delim ++ joinChar ',' (e.in_paths.getD [])

/-- A language-direction-specific bundle of train/test entries. `papers`
models the Python `Set[Paper]` back-reference: Paper hashing is by object
identity (`eq=False`), so the set holds paper identities (`Nat`), kept
duplicate-free by the set-insert discipline. -/
structure Experiment where
  langs : List BCP47Tag
  train : List Entry
  tests : List Entry
  papers : List Nat
deriving DecidableEq, Repr

/-- Python `set.add`: a no-op when the element is already present. -/
def pySetAdd (x : Nat) (s : List Nat) : List Nat :=
  if x ∈ s then s else x :: s

/-- Replace the element at an index, leaving the list unchanged when the
index is out of range (object identities are always in range in Python). -/
def modifyAt (f : α → α) : Nat → List α → List α
  | _, [] => []
  | 0, x :: xs => f x :: xs
  | n + 1, x :: xs => x :: modifyAt f n xs

/-- A paper aggregating experiments. `pid` is the object identity used by the
identity-based hashing of the dataclass (`eq=False`); `experiments` holds the
identities (store indices) of the owned Experiment objects. -/
structure Paper where
  pid : Nat
  name : String
  title : String
  url : String
  cite : String
  experiments : List Nat
  langs : Option (List (List BCP47Tag))
deriving DecidableEq, Repr

/-- Insert the paper identity into one experiment's `papers` set. -/
def addPaperTo (pid : Nat) (e : Experiment) : Experiment :=
  { e with papers := pySetAdd pid e.papers }

/-- The back-reference registration loop of `Paper.__post_init__`: insert the
paper's identity into the `papers` set of every owned experiment in the
store. -/
def registerPaper (pid : Nat) (exps : List Nat) (store : List Experiment) :
    List Experiment :=
  exps.foldl (fun st i => modifyAt (addPaperTo pid) i st) store

/-- `Paper.__post_init__` over an identity-indexed store of experiments:
derive `langs` when falsy (`self.langs = self.langs or set(...)`), then
register the paper into every owned experiment. Returns the updated paper
and store. -/
def Paper.postInit (p : Paper) (store : List Experiment) :
    Paper × List Experiment :=
  let derived :=
    ((p.experiments.filterMap fun i => (store.get? i).map Experiment.langs)).dedup
  let langs' :=
    match p.langs with
    | none => derived
    | some s => if s.isEmpty then derived else s
  ({ p with langs := some langs' },
   registerPaper p.pid p.experiments store)

/-- A concrete stand-in for the external BCP47 normalization service, used
to instantiate the service-parametric theorems: it canonicalizes `english`
to the tag `en` and accepts `en` and `fr` as already canonical. -/
def normTest (s : String) : Option BCP47Tag :=
  if s = "en" then some ⟨"en"⟩
  else if s = "fr" then some ⟨"fr"⟩
  else if s = "english" then some ⟨"en"⟩
  else none

/-- A concrete stand-in for the external extension-detection service. -/
def detectTest : String → String := fun _ => "txt"

/-- A concrete identifier with language order `(fr, en)`. -/
def didFE : DatasetId := ⟨"g", "n", "v", [⟨"fr"⟩, ⟨"en"⟩]⟩

/-- A store holding one experiment (identity 0) with an empty papers set. -/
def storeTest : List Experiment := [⟨[], [], [], []⟩]

/-- A paper with identity 1 owning experiment 0. -/
def paperTest1 : Paper := ⟨1, "a-etal-2020", "t", "u", "c", [0], none⟩

/-- A paper with identity 2 owning experiment 0. -/
def paperTest2 : Paper := ⟨2, "b-etal-2021", "t", "u", "c", [0], none⟩

theorem str_data_append (a b : String) : (a ++ b).data = a.data ++ b.data := rfl

theorem splitCharList_no_delim (d : Char) (l : List Char) (h : d ∉ l) :
    splitCharList d l = [l] := by
  induction l with
  | nil => rfl
  | cons c cs ih =>
    have hcd : ¬(c = d) := fun hc => h (hc ▸ List.mem_cons_self c cs)
    have hd : d ∉ cs := fun hm => h (List.mem_cons_of_mem _ hm)
    simp [splitCharList, hcd, ih hd]

theorem splitCharList_append (d : Char) (x t : List Char) (h : d ∉ x) :
    splitCharList d (x ++ d :: t) = x :: splitCharList d t := by
  induction x with
  | nil => simp [splitCharList]
  | cons c cs ih =>
    have hcd : ¬(c = d) := fun hc => h (hc ▸ List.mem_cons_self c cs)
    have hd : d ∉ cs := fun hm => h (List.mem_cons_of_mem _ hm)
    simp [splitCharList, hcd, ih hd]

theorem splitCharList_join (d : Char) (ps : List (List Char)) (hne : ps ≠ [])
    (h : ∀ p ∈ ps, d ∉ p) :
    splitCharList d (joinCharList d ps) = ps := by
  induction ps with
  | nil => cases hne rfl
  | cons x xs ih =>
    cases xs with
    | nil => exact splitCharList_no_delim d x (h x (by simp))
    | cons y ys =>
      have hjoin : joinCharList d (x :: y :: ys) = x ++ d :: joinCharList d (y :: ys) := rfl
      rw [hjoin, splitCharList_append d x _ (h x (by simp))]
      rw [ih (by simp) (fun p hp => h p (List.mem_cons_of_mem _ hp))]

theorem construct_eq_ok (norm : String → Option BCP47Tag) (g n v : String)
    (raw : List String) (tags : List BCP47Tag)
    (hg : g.data ≠ []) (hn : n.data ≠ []) (hv : v.data ≠ [])
    (hl : pyIsLower n = true) (hres : firstViolation [g, v, n] = none)
    (hmap : normalizeAll norm raw = some tags) :
    DatasetId.construct norm g n v raw = .ok ⟨g, n, v, tags⟩ := by
  unfold DatasetId.construct
  rw [if_neg hg, if_neg hn, if_neg hv, if_neg (by simp [hl]), hres, hmap]

theorem construct_ok_inversion {norm : String → Option BCP47Tag}
    {g n v : String} {raw : List String} {id : DatasetId}
    (h : DatasetId.construct norm g n v raw = .ok id) :
    g.data ≠ [] ∧ n.data ≠ [] ∧ v.data ≠ [] ∧
    pyIsLower n = true ∧ firstViolation [g, v, n] = none ∧
    normalizeAll norm raw = some id.langs ∧ id = ⟨g, n, v, id.langs⟩ := by
  unfold DatasetId.construct at h
  by_cases hg : g.data = []
  · rw [if_pos hg] at h; exact absurd h (by simp)
  rw [if_neg hg] at h
  by_cases hn : n.data = []
  · rw [if_pos hn] at h; exact absurd h (by simp)
  rw [if_neg hn] at h
  by_cases hv : v.data = []
  · rw [if_pos hv] at h; exact absurd h (by simp)
  rw [if_neg hv] at h
  by_cases hl : pyIsLower n = false
  · rw [if_pos hl] at h; exact absurd h (by simp)
  rw [if_neg hl] at h
  cases hres : firstViolation [g, v, n] with
  | some p =>
    obtain ⟨ch, f⟩ := p
    rw [hres] at h
    exact absurd h (by simp)
  | none =>
    rw [hres] at h
    cases hmap : normalizeAll norm raw with
    | none => rw [hmap] at h; exact absurd h (by simp)
    | some tags =>
      rw [hmap] at h
      have hid : DatasetId.mk g n v tags = id := by
        simpa using h
      refine ⟨hg, hn, hv, ?_, rfl, ?_, ?_⟩
      · cases hb : pyIsLower n
        · exact absurd hb hl
        · rfl
      · rw [← hid]
      · rw [← hid]

theorem construct_ne_malformed (norm : String → Option BCP47Tag)
    (g n v : String) (raw : List String) (m : String) :
    DatasetId.construct norm g n v raw ≠ .error (.malformedIdentifierString m) := by
  unfold DatasetId.construct
  by_cases hg : g.data = []
  · rw [if_pos hg]; simp
  rw [if_neg hg]
  by_cases hn : n.data = []
  · rw [if_pos hn]; simp
  rw [if_neg hn]
  by_cases hv : v.data = []
  · rw [if_pos hv]; simp
  rw [if_neg hv]
  by_cases hl : pyIsLower n = false
  · rw [if_pos hl]; simp
  rw [if_neg hl]
  cases hres : firstViolation [g, v, n] with
  | some p => obtain ⟨ch, f⟩ := p; simp
  | none =>
    cases hmap : normalizeAll norm raw with
    | none => simp
    | some tags => simp

theorem construct_fails_of_not_lower (norm : String → Option BCP47Tag)
    (g n v : String) (raw : List String) (hl : pyIsLower n = false) :
    ∃ m, DatasetId.construct norm g n v raw = .error (.invalidIdentifier m) := by
  unfold DatasetId.construct
  by_cases hg : g.data = []
  · rw [if_pos hg]; exact ⟨_, rfl⟩
  rw [if_neg hg]
  by_cases hn : n.data = []
  · rw [if_pos hn]; exact ⟨_, rfl⟩
  rw [if_neg hn]
  by_cases hv : v.data = []
  · rw [if_pos hv]; exact ⟨_, rfl⟩
  rw [if_neg hv]
  rw [if_pos hl]
  exact ⟨_, rfl⟩

/-- Classifier for the identifier-construction outcome, used by witnesses. -/
def isInvalidId : Except IdErr DatasetId → Bool
  | .error (.invalidIdentifier _) => true
  | _ => false

theorem parse_eq_malformed (norm : String → Option BCP47Tag) (s : String)
    (delim : Char) (h : (pySplitChar delim (pyStrip s)).length ≠ 5) :
    DatasetId.parse norm s delim
      = .error (.malformedIdentifierString (malformedMsg delim s)) := by
  unfold DatasetId.parse
  generalize hp : pySplitChar delim (pyStrip s) = parts at h ⊢
  match parts, h with
  | [], _ => rfl
  | [a], _ => rfl
  | [a, b], _ => rfl
  | [a, b, c], _ => rfl
  | [a, b, c, d], _ => rfl
  | [a, b, c, d, e], h => simp at h
  | a :: b :: c :: d :: e :: f :: rest, _ => rfl

theorem parse_of_parts (norm : String → Option BCP47Tag) (s : String)
    (delim : Char) (a b c d e : String)
    (hp : pySplitChar delim (pyStrip s) = [a, b, c, d, e]) :
    DatasetId.parse norm s delim = DatasetId.construct norm a b c [d, e] := by
  unfold DatasetId.parse
  rw [hp]

theorem expectedFormat_default :
    expectedFormat DID_DELIM = "<group>-<name>-<version>-<l1>-<l2>" := by decide

theorem template_infix_malformedMsg (s : String) :
    ("<group>-<name>-<version>-<l1>-<l2>").data <:+: (malformedMsg DID_DELIM s).data := by
  refine ⟨("Dataset ID expected in format: ").data,
    ("; but given " ++ s ++ ". If you are unsure, run \"" ++ CATALOG_CMD
      ++ " | cut -f1 | grep -i <name>\" and copy its id.").data, ?_⟩
  rw [← expectedFormat_default]
  simp only [malformedMsg, str_data_append, List.append_assoc]

theorem catalogCmd_infix_malformedMsg (s : String) :
    CATALOG_CMD.data <:+: (malformedMsg DID_DELIM s).data := by
  refine ⟨("Dataset ID expected in format: " ++ expectedFormat DID_DELIM
      ++ "; but given " ++ s ++ ". If you are unsure, run \"").data,
    (" | cut -f1 | grep -i <name>\" and copy its id.").data, ?_⟩
  simp only [malformedMsg, str_data_append, List.append_assoc]

theorem firstViolation_eq_none {fields : List String}
    (h : firstViolation fields = none) : ∀ f ∈ fields, findReserved f = none := by
  induction fields with
  | nil => simp
  | cons f rest ih =>
    intro x hx
    unfold firstViolation at h
    cases hf : findReserved f with
    | some ch => rw [hf] at h; simp at h
    | none =>
      rw [hf] at h
      rcases List.mem_cons.mp hx with hx | hx
      · subst hx; exact hf
      · exact ih h x hx

theorem not_mem_of_findReserved_none {s : String} (h : findReserved s = none)
    {ch : Char} (hch : ch ∈ reservedChars) : ch ∉ s.data := by
  have := List.find?_eq_none.mp h ch hch
  simpa using this

theorem format_data_two (g n v : String) (t1 t2 : BCP47Tag) :
    ((DatasetId.mk g n v [t1, t2]).format DID_DELIM).data
      = joinCharList DID_DELIM [g.data, n.data, v.data, t1.tag.data, t2.tag.data] := rfl

/-- C1 (counterexample): the round-trip claim fails as stated. The group
`"\tg"` is non-empty and holds no reserved character (tab is not reserved),
so construction succeeds; but `parse` strips leading whitespace from the
formatted string, so the round trip returns a different identifier. -/
theorem roundtrip_counterexample :
    DatasetId.construct normTest "\tg" "n" "v" ["en", "fr"]
      = .ok ⟨"\tg", "n", "v", [⟨"en"⟩, ⟨"fr"⟩]⟩
    ∧ findReserved "\tg" = none ∧ findReserved "n" = none
    ∧ findReserved "v" = none ∧ findReserved "en" = none ∧ findReserved "fr" = none
    ∧ DatasetId.parse normTest
        (DatasetId.format ⟨"\tg", "n", "v", [⟨"en"⟩, ⟨"fr"⟩]⟩ DID_DELIM) DID_DELIM
      = .ok ⟨"g", "n", "v", [⟨"en"⟩, ⟨"fr"⟩]⟩
    ∧ DatasetId.mk "g" "n" "v" [⟨"en"⟩, ⟨"fr"⟩]
        ≠ DatasetId.mk "\tg" "n" "v" [⟨"en"⟩, ⟨"fr"⟩] := by decide

/-- C1 (amended): for every valid `DatasetId` built from
`(group, name, version, lang1, lang2)` whose language tags' canonical
strings are non-reserved fixed points of the normalizer, and whose
canonical string is unchanged by whitespace stripping, parsing the
canonical string produced by `format` with the default delimiter yields
the identifier back — including when the canonical tag differs from the
raw tag supplied at construction. -/
theorem roundtrip_amended (norm : String → Option BCP47Tag) (g n v : String)
    (raw : List String) (id : DatasetId) (t1 t2 : BCP47Tag)
    (hok : DatasetId.construct norm g n v raw = .ok id)
    (hlangs : id.langs = [t1, t2])
    (hres1 : findReserved t1.tag = none) (hres2 : findReserved t2.tag = none)
    (hnorm1 : norm t1.tag = some t1) (hnorm2 : norm t2.tag = some t2)
    (hstrip : pyStrip (id.format DID_DELIM) = id.format DID_DELIM) :
    DatasetId.parse norm (id.format DID_DELIM) DID_DELIM = .ok id := by
  obtain ⟨hg, hn, hv, hl, hfv, hmap, hid⟩ := construct_ok_inversion hok
  rw [hlangs] at hid
  subst hid
  have hdash : DID_DELIM ∈ reservedChars := by decide
  have hfg := firstViolation_eq_none hfv g (by simp)
  have hfvv := firstViolation_eq_none hfv v (by simp)
  have hfn := firstViolation_eq_none hfv n (by simp)
  have hparts : pySplitChar DID_DELIM
      (pyStrip ((DatasetId.mk g n v [t1, t2]).format DID_DELIM))
      = [g, n, v, t1.tag, t2.tag] := by
    rw [hstrip]
    unfold pySplitChar
    rw [format_data_two, splitCharList_join]
    · rfl
    · simp
    · intro p hp
      rcases List.mem_cons.mp hp with rfl | hp
      · exact not_mem_of_findReserved_none hfg hdash
      rcases List.mem_cons.mp hp with rfl | hp
      · exact not_mem_of_findReserved_none hfn hdash
      rcases List.mem_cons.mp hp with rfl | hp
      · exact not_mem_of_findReserved_none hfvv hdash
      rcases List.mem_cons.mp hp with rfl | hp
      · exact not_mem_of_findReserved_none hres1 hdash
      rcases List.mem_cons.mp hp with rfl | hp
      · exact not_mem_of_findReserved_none hres2 hdash
      · simp at hp
  rw [parse_of_parts norm _ DID_DELIM g n v t1.tag t2.tag hparts]
  exact construct_eq_ok norm g n v [t1.tag, t2.tag] [t1, t2] hg hn hv hl hfv
    (by simp [normalizeAll, hnorm1, hnorm2])

/-- Witness for the amended C1 round trip, with the test normalizer: the
raw tag `english` normalizes to the canonical tag `en` (canonical string
differs from raw), and parsing the formatted identifier returns it. -/
theorem roundtrip_amended_witness :
    DatasetId.parse normTest
      ((DatasetId.mk "g" "n" "v" [⟨"en"⟩, ⟨"fr"⟩]).format DID_DELIM) DID_DELIM
      = .ok ⟨"g", "n", "v", [⟨"en"⟩, ⟨"fr"⟩]⟩ :=
  roundtrip_amended normTest "g" "n" "v" ["english", "fr"]
    ⟨"g", "n", "v", [⟨"en"⟩, ⟨"fr"⟩]⟩ ⟨"en"⟩ ⟨"fr"⟩ (by decide) rfl
    (by decide) (by decide) (by decide) (by decide) (by decide)

/-- C3: with the default delimiter, `parse` fails with
`MalformedIdentifierString` exactly when splitting the whitespace-stripped
input on the delimiter yields a segment count other than 5, and in that
case the error message carries the expected template
`<group>-<name>-<version>-<l1>-<l2>` and the catalog-listing remediation
hint. -/
theorem parse_malformed_iff_segments (norm : String → Option BCP47Tag)
    (s : String) :
    ((pySplitChar DID_DELIM (pyStrip s)).length ≠ 5 →
      DatasetId.parse norm s DID_DELIM
        = .error (.malformedIdentifierString (malformedMsg DID_DELIM s))
      ∧ ("<group>-<name>-<version>-<l1>-<l2>").data <:+: (malformedMsg DID_DELIM s).data
      ∧ CATALOG_CMD.data <:+: (malformedMsg DID_DELIM s).data)
    ∧ ((pySplitChar DID_DELIM (pyStrip s)).length = 5 →
      ∀ m, DatasetId.parse norm s DID_DELIM
        ≠ .error (.malformedIdentifierString m)) := by
  constructor
  · intro h
    exact ⟨parse_eq_malformed norm s DID_DELIM h,
      template_infix_malformedMsg s, catalogCmd_infix_malformedMsg s⟩
  · intro h m
    rcases hp : pySplitChar DID_DELIM (pyStrip s) with
      _ | ⟨a, _ | ⟨b, _ | ⟨c, _ | ⟨d, _ | ⟨e, _ | ⟨f, rest⟩⟩⟩⟩⟩⟩ <;>
        rw [hp] at h <;> simp at h
    rw [parse_of_parts norm s DID_DELIM a b c d e hp]
    exact construct_ne_malformed norm a b c [d, e] m

/-- Witness for C3 at the 4-segment input of the spec's rejection example. -/
theorem parse_malformed_iff_segments_witness :
    DatasetId.parse normTest "g-n-v-en" DID_DELIM
      = .error (.malformedIdentifierString (malformedMsg DID_DELIM "g-n-v-en")) :=
  ((parse_malformed_iff_segments normTest "g-n-v-en").1 (by decide)).1

/-- C8: constructing a `DatasetId` with `name="News"` fails with
`InvalidIdentifier`, the same construction with `name="news"` succeeds,
and in general construction fails whenever the name violates the
lower-case rule. -/
theorem name_case_rule (norm : String → Option BCP47Tag) (t1 t2 : BCP47Tag)
    (h1 : norm "en" = some t1) (h2 : norm "fr" = some t2) :
    DatasetId.construct norm "g" "News" "v" ["en", "fr"]
      = .error (.invalidIdentifier "name News has to be lower cased for consistency")
    ∧ DatasetId.construct norm "g" "news" "v" ["en", "fr"]
      = .ok ⟨"g", "news", "v", [t1, t2]⟩
    ∧ ∀ g n v ls, pyIsLower n = false →
        ∃ m, DatasetId.construct norm g n v ls = .error (.invalidIdentifier m) := by
  refine ⟨?_, ?_, fun g n v ls hl => construct_fails_of_not_lower norm g n v ls hl⟩
  · unfold DatasetId.construct
    rw [if_neg (by decide), if_neg (by decide), if_neg (by decide), if_pos (by decide)]
    rfl
  · exact construct_eq_ok norm "g" "news" "v" ["en", "fr"] [t1, t2]
      (by decide) (by decide) (by decide) (by decide) (by decide)
      (by simp [normalizeAll, h1, h2])

/-- Witness for C8 with the test normalizer: `name="news"` succeeds. -/
theorem name_case_rule_witness :
    DatasetId.construct normTest "g" "news" "v" ["en", "fr"]
      = .ok ⟨"g", "news", "v", [⟨"en"⟩, ⟨"fr"⟩]⟩ :=
  (name_case_rule normTest ⟨"en"⟩ ⟨"fr"⟩ (by decide) (by decide)).2.1

/-- C10: `DatasetId` construction fails for every name with no cased
character (such as an all-digit name), because Python's `islower` is false
for caseless strings. -/
theorem caseless_name_rejected (norm : String → Option BCP47Tag)
    (g n v : String) (ls : List String)
    (hcaseless : n.data.all (fun c => !pyCased c) = true) :
    ∃ m, DatasetId.construct norm g n v ls = .error (.invalidIdentifier m) := by
  apply construct_fails_of_not_lower
  have hany : n.data.any pyCased = false := by
    rw [List.any_eq_false]
    intro c hc
    have := List.all_eq_true.mp hcaseless c hc
    simpa using this
  unfold pyIsLower
  rw [hany]
  rfl

/-- Witness for C10 at the all-digit name `"2021"`. -/
theorem caseless_name_rejected_witness :
    isInvalidId (DatasetId.construct normTest "g" "2021" "v" ["en"]) = true := by
  obtain ⟨m, hm⟩ := caseless_name_rejected normTest "g" "2021" "v" ["en"] (by decide)
  rw [hm]
  rfl

theorem archive_not_dot {s : String} (h : isArchiveExt s = true) :
    pyStartsWithDot s = false := by
  simp only [isArchiveExt, ARCHIVE_EXTS, decide_eq_true_eq, List.mem_cons,
    List.mem_singleton, List.not_mem_nil, or_false] at h
  rcases h with rfl | rfl | rfl | rfl <;> rfl

theorem isArchiveExt_iff (s : String) :
    isArchiveExt s = true ↔ s = "zip" ∨ s = "tar" ∨ s = "tar.gz" ∨ s = "tgz" := by
  simp [isArchiveExt, ARCHIVE_EXTS]

theorem entry_ok_inversion {detect : String → String} {did : DatasetId}
    {url : String} {filename ext : Option String} {in_paths : Option (List String)}
    {in_ext cite : Option String} {cols : Option (Int × Int)} {e : Entry}
    (h : Entry.construct detect did url filename ext in_paths in_ext cite cols = .ok e) :
    e.ext = resolveExt detect url filename ext
    ∧ e.is_archive = isArchiveExt (resolveExt detect url filename ext)
    ∧ e.did = did ∧ e.url = url ∧ e.in_paths = in_paths ∧ e.in_ext = in_ext := by
  unfold Entry.construct at h
  cases hdot : pyStartsWithDot (resolveExt detect url filename ext) with
  | true => rw [if_pos hdot] at h; exact absurd h (by simp)
  | false =>
  rw [if_neg (by simp [hdot])] at h
  cases harch : isArchiveExt (resolveExt detect url filename ext) with
  | true =>
    rw [if_pos harch] at h
    cases hp : pyTruthyList in_paths with
    | false => rw [if_pos hp] at h; exact absurd h (by simp)
    | true =>
    rw [if_neg (by simp [hp])] at h
    cases he : pyTruthyStr in_ext with
    | false => rw [if_pos he] at h; exact absurd h (by simp)
    | true =>
    rw [if_neg (by simp [he])] at h
    have he2 := (Except.ok.injEq _ _).mp h
    subst he2
    exact ⟨rfl, rfl, rfl, rfl, rfl, rfl⟩
  | false =>
    rw [if_neg (by simp [harch])] at h
    by_cases hop : in_ext ≠ some "opus_xces"
    · rw [if_pos hop] at h
      cases hp : pyTruthyList in_paths with
      | true => rw [if_pos hp] at h; exact absurd h (by simp)
      | false =>
        rw [if_neg (by simp [hp])] at h
        have he2 := (Except.ok.injEq _ _).mp h
        subst he2
        exact ⟨rfl, rfl, rfl, rfl, rfl, rfl⟩
    · rw [if_neg hop] at h
      have he2 := (Except.ok.injEq _ _).mp h
      subst he2
      exact ⟨rfl, rfl, rfl, rfl, rfl, rfl⟩

/-- C2 (code evaluated at the failing input): an Entry over language order
`(fr, en)` with `in_ext` not `tmx` answers `false` to `is_swap((en, fr))`,
where the claim requires `true` — the source compares the reversed supplied
pair against `tuple(self.lang_str)`, the tuple of the characters of the
string `"fr-en"`, which can never equal a two-tag pair. -/
theorem is_swap_code_bug :
    Entry.construct detectTest didFE "http://x/a.tsv" none (some "tsv") none
        (some "txt") none none
      = .ok ⟨didFE, "http://x/a.tsv", "n.tsv", "tsv", none, some "txt", none, none, false⟩
    ∧ (Entry.mk didFE "http://x/a.tsv" "n.tsv" "tsv" none (some "txt") none none
        false).in_ext ≠ some "tmx"
    ∧ (Entry.mk didFE "http://x/a.tsv" "n.tsv" "tsv" none (some "txt") none none
        false).lang_str = "fr-en"
    ∧ (Entry.mk didFE "http://x/a.tsv" "n.tsv" "tsv" none (some "txt") none none
        false).is_swap ["en", "fr"] = false
    ∧ (Entry.mk didFE "http://x/a.tsv" "n.tsv" "tsv" none (some "txt") none none
        false).is_swap ["fr", "en"] = false := by decide

/-- C4: when the resolved extension is an archive extension, construction
fails with `ArchiveSpecError` if `in_paths` is missing/empty or `in_ext` is
not supplied, and succeeds with `is_archive = true` when `in_paths` is
non-empty and `in_ext` is supplied. -/
theorem archive_consistency (detect : String → String) (did : DatasetId)
    (url : String) (filename ext : Option String)
    (in_paths : Option (List String)) (in_ext cite : Option String)
    (cols : Option (Int × Int))
    (harch : isArchiveExt (resolveExt detect url filename ext) = true) :
    (pyTruthyList in_paths = false ∨ pyTruthyStr in_ext = false →
      Entry.construct detect did url filename ext in_paths in_ext cite cols
        = .error .archiveSpecError)
    ∧ (pyTruthyList in_paths = true → pyTruthyStr in_ext = true →
      Entry.construct detect did url filename ext in_paths in_ext cite cols
        = .ok ⟨did, url, resolveFilename detect did url filename ext,
            resolveExt detect url filename ext, in_paths, in_ext, cite, cols, true⟩
      ∧ (Entry.mk did url (resolveFilename detect did url filename ext)
          (resolveExt detect url filename ext) in_paths in_ext cite cols
          true).is_archive = true) := by
  have hdot : ¬(pyStartsWithDot (resolveExt detect url filename ext) = true) := by
    rw [archive_not_dot harch]; simp
  constructor
  · intro hcase
    unfold Entry.construct
    rw [if_neg hdot, if_pos harch]
    rcases hcase with hp | he
    · rw [if_pos hp]
    · by_cases hp : pyTruthyList in_paths = false
      · rw [if_pos hp]
      · rw [if_neg hp, if_pos he]
  · intro hp he
    unfold Entry.construct
    rw [if_neg hdot, if_pos harch, if_neg (by simp [hp]), if_neg (by simp [he])]
    exact ⟨rfl, rfl⟩

/-- Witness for C4: a zip entry with one member path and an inner
extension constructs successfully with `is_archive = true`. -/
theorem archive_consistency_witness :
    Entry.construct detectTest didFE "http://x/y" none (some "zip")
        (some ["a.txt"]) (some "txt") none none
      = .ok ⟨didFE, "http://x/y", "n.zip", "zip", some ["a.txt"], some "txt",
          none, none, true⟩ := by
  have h := (archive_consistency detectTest didFE "http://x/y" none (some "zip")
    (some ["a.txt"]) (some "txt") none none (by decide)).2 (by decide) (by decide)
  exact h.1.trans (by decide)

/-- C5 (counterexample): the non-archive shape claim fails as stated. A
resolved extension `".tsv"` is outside the archive set, `in_paths` is
non-empty and `in_ext` differs from the exempt alignment format, yet
construction fails with the dot-extension error, not `InvalidEntryShape`. -/
theorem nonarchive_shape_counterexample :
    isArchiveExt (resolveExt detectTest "http://x/y" none (some ".tsv")) = false
    ∧ Entry.construct detectTest didFE "http://x/y" none (some ".tsv")
        (some ["x"]) (some "txt") none none
      = .error .extStartsWithDot
    ∧ EntryErr.extStartsWithDot ≠ EntryErr.invalidEntryShape := by decide

/-- C5 (amended): for every Entry construction whose resolved ext is not in
the archive set and does not begin with a dot, construction fails with
`InvalidEntryShape` when `in_paths` is non-empty unless `in_ext` equals the
exempt multi-file alignment format `opus_xces`; with empty or absent
`in_paths` the construction succeeds. -/
theorem nonarchive_shape (detect : String → String) (did : DatasetId)
    (url : String) (filename ext : Option String)
    (in_paths : Option (List String)) (in_ext cite : Option String)
    (cols : Option (Int × Int))
    (hnot : isArchiveExt (resolveExt detect url filename ext) = false)
    (hdot : pyStartsWithDot (resolveExt detect url filename ext) = false) :
    (pyTruthyList in_paths = true → in_ext ≠ some "opus_xces" →
      Entry.construct detect did url filename ext in_paths in_ext cite cols
        = .error .invalidEntryShape)
    ∧ (pyTruthyList in_paths = false →
      Entry.construct detect did url filename ext in_paths in_ext cite cols
        = .ok ⟨did, url, resolveFilename detect did url filename ext,
            resolveExt detect url filename ext, in_paths, in_ext, cite, cols, false⟩)
    ∧ (in_ext = some "opus_xces" →
      Entry.construct detect did url filename ext in_paths in_ext cite cols
        ≠ .error .invalidEntryShape) := by
  refine ⟨?_, ?_, ?_⟩
  · intro hp hop
    unfold Entry.construct
    rw [if_neg (by simp [hdot]), if_neg (by simp [hnot]), if_pos hop, if_pos hp]
  · intro hp
    unfold Entry.construct
    rw [if_neg (by simp [hdot]), if_neg (by simp [hnot])]
    by_cases hop : in_ext ≠ some "opus_xces"
    · rw [if_pos hop, if_neg (by simp [hp])]
    · rw [if_neg hop]
  · intro hop
    unfold Entry.construct
    rw [if_neg (by simp [hdot]), if_neg (by simp [hnot]), if_neg (by simp [hop])]
    simp

/-- Witness for C5: a `tsv` entry with a non-empty `in_paths` and
`in_ext="txt"` fails with `InvalidEntryShape`. -/
theorem nonarchive_shape_witness :
    Entry.construct detectTest didFE "http://x/y" none (some "tsv")
        (some ["x"]) (some "txt") none none
      = .error .invalidEntryShape :=
  (nonarchive_shape detectTest didFE "http://x/y" none (some "tsv")
    (some ["x"]) (some "txt") none none (by decide) (by decide)).1
    (by decide) (by decide)

/-- C7: for every successfully constructed Entry, `is_archive` is true iff
its extension is exactly one of `zip`, `tar`, `tar.gz`, `tgz` (closed,
case-sensitive set). -/
theorem is_archive_closed_set (detect : String → String) (did : DatasetId)
    (url : String) (filename ext : Option String)
    (in_paths : Option (List String)) (in_ext cite : Option String)
    (cols : Option (Int × Int)) (e : Entry)
    (hok : Entry.construct detect did url filename ext in_paths in_ext cite cols
      = .ok e) :
    e.is_archive = true ↔
      e.ext = "zip" ∨ e.ext = "tar" ∨ e.ext = "tar.gz" ∨ e.ext = "tgz" := by
  obtain ⟨hext, harch, -⟩ := entry_ok_inversion hok
  rw [harch, ← hext]
  exact isArchiveExt_iff e.ext

/-- Witness for C7: applied to the constructed zip entry. -/
theorem is_archive_closed_set_witness :
    (Entry.mk didFE "http://x/y" "n.zip" "zip" (some ["a.txt"]) (some "txt")
      none none true).is_archive = true := by
  have h := is_archive_closed_set detectTest didFE "http://x/y" none (some "zip")
    (some ["a.txt"]) (some "txt") none none
    ⟨didFE, "http://x/y", "n.zip", "zip", some ["a.txt"], some "txt", none, none, true⟩
    (by decide)
  exact h.mpr (by decide)

/-- C9: `is_noisy(seg1, seg2)` is true exactly when either segment is
absent or empty/whitespace-only after trimming; in particular at the
spec's three example inputs. -/
theorem is_noisy_spec (e : Entry) (s1 s2 : Option String) :
    (e.is_noisy s1 s2 = true ↔
      s1 = none ∨ s2 = none
      ∨ (∃ t, s1 = some t ∧ (pyStrip t).data = [])
      ∨ (∃ t, s2 = some t ∧ (pyStrip t).data = []))
    ∧ e.is_noisy none (some "hello") = true
    ∧ e.is_noisy (some "  ") (some "hi") = true
    ∧ e.is_noisy (some "hi") (some "there") = false := by
  refine ⟨?_, rfl, rfl, rfl⟩
  cases s1 with
  | none => simp [Entry.is_noisy]
  | some a =>
    cases s2 with
    | none => simp [Entry.is_noisy]
    | some b => simp [Entry.is_noisy, List.isEmpty_iff]

theorem get?_modifyAt (f : α → α) (i j : Nat) (l : List α) :
    (modifyAt f i l).get? j = if i = j then (l.get? j).map f else l.get? j := by
  induction l generalizing i j with
  | nil => cases i <;> simp [modifyAt]
  | cons x xs ih =>
    cases i with
    | zero =>
      cases j with
      | zero => simp [modifyAt]
      | succ j => simp [modifyAt]
    | succ i =>
      cases j with
      | zero => simp [modifyAt]
      | succ j => simp only [modifyAt, List.get?_cons_succ, Nat.add_right_cancel_iff]; exact ih i j

theorem addPaperTo_idem (pid : Nat) (e : Experiment) :
    addPaperTo pid (addPaperTo pid e) = addPaperTo pid e := by
  unfold addPaperTo pySetAdd
  by_cases h : pid ∈ e.papers
  · simp [h]
  · simp [h]

theorem mem_addPaperTo (pid : Nat) (e : Experiment) :
    pid ∈ (addPaperTo pid e).papers := by
  unfold addPaperTo pySetAdd
  by_cases h : pid ∈ e.papers
  · rw [if_pos h]; exact h
  · rw [if_neg h]; exact List.mem_cons_self pid e.papers

theorem registerPaper_cons (pid a : Nat) (as : List Nat)
    (store : List Experiment) :
    registerPaper pid (a :: as) store
      = registerPaper pid as (modifyAt (addPaperTo pid) a store) := rfl

theorem get?_registerPaper (pid : Nat) (exps : List Nat)
    (store : List Experiment) (j : Nat) :
    (registerPaper pid exps store).get? j
      = (store.get? j).map (fun e => if j ∈ exps then addPaperTo pid e else e) := by
  induction exps generalizing store with
  | nil =>
    cases h : store.get? j with
    | none => rw [registerPaper, List.foldl_nil, h]; rfl
    | some e => rw [registerPaper, List.foldl_nil, h]; simp
  | cons a as ih =>
    rw [registerPaper_cons, ih, get?_modifyAt]
    by_cases haj : a = j
    · subst haj
      cases ho : store.get? a with
      | none => simp
      | some e =>
        simp only [if_pos rfl, Option.map_some, List.mem_cons, true_or, if_pos]
        by_cases has : a ∈ as
        · simp [has, addPaperTo_idem]
        · simp [has]
    · rw [if_neg haj]
      have hiff : j ∈ a :: as ↔ j ∈ as :=
        ⟨fun hm => (List.mem_cons.mp hm).resolve_left fun h => absurd h.symm haj,
         fun hm => List.mem_cons_of_mem _ hm⟩
      simp only [hiff]

theorem postInit_snd (p : Paper) (store : List Experiment) :
    (Paper.postInit p store).2 = registerPaper p.pid p.experiments store := rfl

/-- C6: every successful Paper construction registers the paper into the
`papers` back-reference set of every Experiment in its list; constructing
two Papers over the same Experiment leaves that Experiment's set holding
exactly both papers, each exactly once, membership being decided by object
identity (`pid`); and re-running the registration of the same paper is a
no-op. -/
theorem paper_backref_registration (store : List Experiment) (p1 p2 : Paper)
    (i : Nat) (e : Experiment)
    (hget : store.get? i = some e)
    (h1 : i ∈ p1.experiments) (h2 : i ∈ p2.experiments)
    (hne : p1.pid ≠ p2.pid)
    (hm1 : p1.pid ∉ e.papers) (hm2 : p2.pid ∉ e.papers) :
    (∀ j, j ∈ p1.experiments → ∀ e1,
        (Paper.postInit p1 store).2.get? j = some e1 → p1.pid ∈ e1.papers)
    ∧ (∃ e2, (Paper.postInit p2 (Paper.postInit p1 store).2).2.get? i = some e2
        ∧ e2.papers = p2.pid :: p1.pid :: e.papers
        ∧ p1.pid ∈ e2.papers ∧ p2.pid ∈ e2.papers
        ∧ e2.papers.count p1.pid = 1 ∧ e2.papers.count p2.pid = 1)
    ∧ (Paper.postInit p1 (Paper.postInit p1 store).2).2
        = (Paper.postInit p1 store).2 := by
  refine ⟨?_, ?_, ?_⟩
  · intro j hj e1 hg1
    rw [postInit_snd, get?_registerPaper] at hg1
    cases ho : store.get? j with
    | none => rw [ho] at hg1; simp at hg1
    | some e' =>
      rw [ho] at hg1
      have hsome : some (addPaperTo p1.pid e') = some e1 := by
        simpa [hj] using hg1
      have he1 : addPaperTo p1.pid e' = e1 := Option.some.inj hsome
      rw [← he1]
      exact mem_addPaperTo p1.pid e'
  · have hpap : addPaperTo p2.pid (addPaperTo p1.pid e)
        = { e with papers := p2.pid :: p1.pid :: e.papers } := by
      unfold addPaperTo pySetAdd
      rw [if_neg hm1]
      have : p2.pid ∉ p1.pid :: e.papers := by
        intro hmem
        rcases List.mem_cons.mp hmem with h | h
        · exact hne h.symm
        · exact hm2 h
      simp [this]
    refine ⟨addPaperTo p2.pid (addPaperTo p1.pid e), ?_, ?_, ?_, ?_, ?_, ?_⟩
    · rw [postInit_snd, get?_registerPaper, postInit_snd, get?_registerPaper,
        hget]
      simp [h1, h2]
    · rw [hpap]
    · rw [hpap]; simp
    · rw [hpap]; simp
    · rw [hpap]
      simp only [List.count_cons]
      rw [List.count_eq_zero.mpr hm1]
      simp [hne.symm]
    · rw [hpap]
      simp only [List.count_cons]
      rw [List.count_eq_zero.mpr hm2]
      simp [hne]
  · simp only [postInit_snd]
    apply List.ext_get?
    intro j
    simp only [get?_registerPaper]
    cases ho : store.get? j with
    | none => simp
    | some e' =>
      by_cases hj : j ∈ p1.experiments
      · simp [hj, addPaperTo_idem]
      · simp [hj]

/-- Witness for C6: re-registering the same paper over the one-experiment
store leaves the store unchanged. -/
theorem paper_backref_registration_witness :
    (Paper.postInit paperTest1 (Paper.postInit paperTest1 storeTest).2).2
      = (Paper.postInit paperTest1 storeTest).2 :=
  (paper_backref_registration storeTest paperTest1 paperTest2 0 ⟨[], [], [], []⟩
    (by decide) (by decide) (by decide) (by decide) (by decide) (by decide)).2.2

end Mtdata
